import Mathlib

/-!
# Loopback WebRTC negotiation demos

A shallow embedding of the two start handlers of the repository,
`src/webrtc_v0/app.js` (camera and microphone) and `src/webrtc/app.js`
(captured video element), as a step function on an explicit page state.

The browser is the environment.  It delivers events to the page: a click on
the start button, the settling of a promise a run of the start handler is
awaiting, a candidate-discovered event, a track-received event, and the
settling of a promise returned by `addIceCandidate`.  Every call the page
makes on the browser is appended to a trace.  Between two `await`s a handler
runs to completion, so one event is one step, and events of different kinds
interleave freely.

`new RTCPeerConnection`, `getTracks` and `addTrack` are taken to return
normally, as they do for a well-formed configuration and for distinct tracks
added to a fresh connection.  Connections are numbered in the order of their
construction.

A session is a list of events run from the freshly loaded page.  The
statements about one run of the start handler fix the clicks and settlings of
the session (one click, then the replies of that run) and leave every other
event arbitrary.
-/

namespace Loopback

/-- The two demos. `camera` is `src/webrtc_v0/app.js`, `video` is `src/webrtc/app.js`. -/
inductive Variant
  | camera
  | video
  deriving DecidableEq, Repr

/-- An error object; `message` is what `err.message` reads. -/
structure Err where
  message : String
  deriving DecidableEq, Repr

abbrev ConnId := Nat
abbrev Track := Nat
abbrev Cand := Nat

/-- A media stream: an identity and the tracks `getTracks()` returns, in order. -/
structure Stream where
  id : Nat
  tracks : List Track
  deriving DecidableEq, Repr

/-- The `type` of a session description. -/
inductive SdpKind
  | offer
  | answer
  | pranswer
  | rollback
  deriving DecidableEq, Repr

/-- A session description. -/
structure Desc where
  kind : SdpKind
  sdp : Nat
  deriving DecidableEq, Repr

/-- A call the page makes on the browser. -/
inductive Call
  | setDisabled
  | getUserMedia
  | setLocalVideoSrc (s : Stream)
  | play
  | captureStream
  | newPeerConnection (c : ConnId)
  | addTrack (c : ConnId) (t : Track) (s : Stream)
  | addIceCandidate (c : ConnId) (cand : Cand)
  | createOffer (c : ConnId)
  | createAnswer (c : ConnId)
  | setLocalDescription (c : ConnId) (d : Desc)
  | setRemoteDescription (c : ConnId) (d : Desc)
  | setRemoteVideoSrc (s : Option Stream)
  | consoleLog (msg : String)
  | consoleError (msg : String) (e : Err)
  | alert (msg : String)
  | close (c : ConnId)
  deriving DecidableEq, Repr

/-- What `espVideo.captureStream()` does when it is called. -/
inductive Capture
  | throws (e : Err)
  | falsy
  | stream (s : Stream)
  deriving DecidableEq, Repr

/-- How an awaited promise settles. `played cap` is `espVideo.play()` resolving,
with `cap` the behaviour of the `captureStream()` call that follows it in the
same turn. -/
inductive Reply
  | rejected (e : Err)
  | resolved
  | played (cap : Capture)
  | media (s : Stream)
  | desc (d : Desc)
  deriving DecidableEq, Repr

/-- The `await` at which a run of the start handler is suspended. -/
inductive Pc
  | awaitGetUserMedia
  | awaitPlay
  | awaitCreateOffer
  | awaitSetLocalOffer (offer : Desc)
  | awaitSetRemoteOffer (offer : Desc)
  | awaitCreateAnswer (offer : Desc)
  | awaitSetLocalAnswer (offer answer : Desc)
  | awaitSetRemoteAnswer (offer answer : Desc)
  | finished
  deriving DecidableEq, Repr

/-- The two `onicecandidate` closures: the one assigned to the local connection
forwards to the connection the module variable for the remote side holds when
the event fires, and the other way round. -/
inductive IceHandler
  | toRemote
  | toLocal
  deriving DecidableEq, Repr

/-- The page state. `stream`, `localConn` and `remoteConn` are the three
module-level `let` variables; `none` is `undefined`. -/
structure World where
  stream : Option Stream
  localConn : Option ConnId
  remoteConn : Option ConnId
  disabled : Bool
  nextConn : Nat
  iceHandlers : List (ConnId × IceHandler)
  trackHandlers : List ConnId
  tasks : List Pc
  icePromises : List (Option String)
  remoteVideoSrc : Option Stream
  trace : List Call
  deriving DecidableEq, Repr

/-- A freshly loaded page. -/
def World.init : World :=
  { stream := none, localConn := none, remoteConn := none, disabled := false,
    nextConn := 0, iceHandlers := [], trackHandlers := [], tasks := [],
    icePromises := [], remoteVideoSrc := none, trace := [] }

/-- What the browser delivers to the page. -/
inductive Event
  | click
  | settle (tid : Nat) (r : Reply)
  | icecandidate (c : ConnId) (cand : Option Cand)
  | track (c : ConnId) (streams : List Stream)
  | iceSettle (n : Nat) (r : Option Err)
  deriving DecidableEq, Repr

/-- The error a property read on `undefined` throws. -/
def typeError : Err := ⟨"TypeError"⟩

/-- The `catch` block around the negotiation: `src/webrtc_v0/app.js` lines 73-75
and `src/webrtc/app.js` lines 69-72. -/
def catchBlock : Variant → Err → List Call
  | .camera, e => [.consoleError "Error creating/handling offer/answer" e]
  | .video, e =>
      [.consoleError "Error starting WebRTC with ESP32 stream:" e,
       .alert ("Failed to start WebRTC: " ++ e.message)]

/-- The message of the `console.error` call of the `catch` block. -/
def catchLogMsg : Variant → String
  | .camera => "Error creating/handling offer/answer"
  | .video => "Error starting WebRTC with ESP32 stream:"

/-- The message of the `.catch` attached to an `addIceCandidate` promise. -/
def iceCatchMsg : Variant → IceHandler → String
  | .camera, .toRemote => "Error adding remote ICE candidate"
  | .camera, .toLocal => "Error adding local ICE candidate"
  | .video, .toRemote => "Error adding remote candidate"
  | .video, .toLocal => "Error adding local candidate"

/-- Replace the state of run `tid`. -/
def World.setTask (w : World) (tid : Nat) (pc : Pc) : World :=
  { w with tasks := w.tasks.set tid pc }

/-- Append calls to the trace. -/
def World.emit (w : World) (cs : List Call) : World :=
  { w with trace := w.trace ++ cs }

/-- Run `tid` leaves through its `catch` block with error `e`. -/
def World.abort (v : Variant) (w : World) (tid : Nat) (e : Err) : World :=
  (w.emit (catchBlock v e)).setTask tid .finished

/-- The synchronous stretch from the construction of the two connections to the
`createOffer` call: `src/webrtc_v0/app.js` lines 32-63, `src/webrtc/app.js`
lines 29-59. `pre` is what the variant does with the stream just before. -/
def World.build (w : World) (tid : Nat) (s : Stream) (pre : List Call) : World :=
  let l := w.nextConn
  let r := w.nextConn + 1
  { w with
    stream := some s
    localConn := some l
    remoteConn := some r
    nextConn := w.nextConn + 2
    iceHandlers := (r, .toLocal) :: (l, .toRemote) :: w.iceHandlers
    trackHandlers := r :: w.trackHandlers
    tasks := w.tasks.set tid .awaitCreateOffer
    trace := w.trace ++ pre ++ [.newPeerConnection l, .newPeerConnection r]
      ++ s.tracks.map (fun t => Call.addTrack l t s) ++ [.createOffer l] }

/-- A click on the start button. The browser does not dispatch a click to a
disabled button. `src/webrtc_v0/app.js` lines 15-20 run up to the
`getUserMedia` call, `src/webrtc/app.js` lines 13-17 up to `play()`. -/
def onClick : Variant → World → World
  | .camera, w =>
      if w.disabled then w
      else
        { w with
          disabled := true
          tasks := w.tasks ++ [.awaitGetUserMedia]
          trace := w.trace ++ [.setDisabled, .getUserMedia] }
  | .video, w =>
      if w.disabled then w
      else { w with tasks := w.tasks ++ [.awaitPlay], trace := w.trace ++ [.play] }

/-- Run `tid`, suspended at `pc`, continues with the reply `r` up to its next
`await` or its end. A reply of a shape the awaited promise cannot produce
leaves the page as it is. -/
def resume (v : Variant) (w : World) (tid : Nat) : Pc → Reply → World
  | .awaitGetUserMedia, .media s => w.build tid s [.setLocalVideoSrc s]
  | .awaitGetUserMedia, .rejected e =>
      (w.emit [.consoleError "Error accessing media devices." e,
               .alert "Could not access camera/microphone. Check permissions."]).setTask
        tid .finished
  | .awaitPlay, .rejected e => w.abort v tid e
  | .awaitPlay, .played (.throws e) => (w.emit [.captureStream]).abort v tid e
  | .awaitPlay, .played .falsy =>
      ({ w with stream := none }.emit
        [.captureStream,
         .alert "Could not capture stream from ESP video element. Check browser compatibility / CORS."]).setTask
        tid .finished
  | .awaitPlay, .played (.stream s) =>
      w.build tid s [.captureStream, .consoleLog "Captured ESP32 camera stream:"]
  | .awaitCreateOffer, .rejected e => w.abort v tid e
  | .awaitCreateOffer, .desc offer =>
      match w.localConn with
      | some l => (w.emit [.setLocalDescription l offer]).setTask tid (.awaitSetLocalOffer offer)
      | none => w.abort v tid typeError
  | .awaitSetLocalOffer _, .rejected e => w.abort v tid e
  | .awaitSetLocalOffer offer, .resolved =>
      match w.remoteConn with
      | some r => (w.emit [.setRemoteDescription r offer]).setTask tid (.awaitSetRemoteOffer offer)
      | none => w.abort v tid typeError
  | .awaitSetRemoteOffer _, .rejected e => w.abort v tid e
  | .awaitSetRemoteOffer offer, .resolved =>
      match w.remoteConn with
      | some r => (w.emit [.createAnswer r]).setTask tid (.awaitCreateAnswer offer)
      | none => w.abort v tid typeError
  | .awaitCreateAnswer _, .rejected e => w.abort v tid e
  | .awaitCreateAnswer offer, .desc answer =>
      match w.remoteConn with
      | some r =>
          (w.emit [.setLocalDescription r answer]).setTask tid (.awaitSetLocalAnswer offer answer)
      | none => w.abort v tid typeError
  | .awaitSetLocalAnswer _ _, .rejected e => w.abort v tid e
  | .awaitSetLocalAnswer offer answer, .resolved =>
      match w.localConn with
      | some l =>
          (w.emit [.setRemoteDescription l answer]).setTask tid (.awaitSetRemoteAnswer offer answer)
      | none => w.abort v tid typeError
  | .awaitSetRemoteAnswer _ _, .rejected e => w.abort v tid e
  | .awaitSetRemoteAnswer _ _, .resolved =>
      match v with
      | .camera => w.setTask tid .finished
      | .video =>
          (w.emit [.consoleLog
            "WebRTC negotiation complete! The ESP32 stream is being looped back."]).setTask
            tid .finished
  | _, _ => w

/-- A candidate-discovered event on connection `c`: `src/webrtc_v0/app.js`
lines 41-53, `src/webrtc/app.js` lines 38-50. The handler reads the module
variable of the other side when the event fires. -/
def onIceCandidate (v : Variant) (w : World) (c : ConnId) (cand : Option Cand) : World :=
  match w.iceHandlers.lookup c with
  | none => w
  | some h =>
      match cand with
      | none => w
      | some k =>
          match (match h with
                 | .toRemote => w.remoteConn
                 | .toLocal => w.localConn) with
          | none => w
          | some target =>
              { w with
                icePromises := w.icePromises ++ [some (iceCatchMsg v h)]
                trace := w.trace ++ [.addIceCandidate target k] }

/-- A track-received event on connection `c`: `src/webrtc_v0/app.js` lines
56-59, `src/webrtc/app.js` lines 53-56. -/
def onTrack (w : World) (c : ConnId) (streams : List Stream) : World :=
  if c ∈ w.trackHandlers then
    { w with
      remoteVideoSrc := streams.head?
      trace := w.trace ++ [.setRemoteVideoSrc streams.head?] }
  else w

/-- The promise of the `n`-th `addIceCandidate` call settles; `some e` is a
rejection, which the attached `.catch` logs. -/
def onIceSettle (w : World) (n : Nat) (r : Option Err) : World :=
  match w.icePromises[n]? with
  | some (some msg) =>
      match r with
      | some e =>
          { w with
            icePromises := w.icePromises.set n none
            trace := w.trace ++ [.consoleError msg e] }
      | none => { w with icePromises := w.icePromises.set n none }
  | _ => w

/-- One event. -/
def step (v : Variant) (w : World) : Event → World
  | .click => onClick v w
  | .settle tid r =>
      match w.tasks[tid]? with
      | some pc => resume v w tid pc r
      | none => w
  | .icecandidate c cand => onIceCandidate v w c cand
  | .track c streams => onTrack w c streams
  | .iceSettle n r => onIceSettle w n r

/-- The page after a sequence of events. -/
def run (v : Variant) (w : World) (evs : List Event) : World :=
  evs.foldl (step v) w

/-- The negotiation calls of a trace, in order. -/
def negotiation (tr : List Call) : List Call :=
  tr.filter fun
    | .createOffer _ => true
    | .createAnswer _ => true
    | .setLocalDescription _ _ => true
    | .setRemoteDescription _ _ => true
    | _ => false

/-- The `RTCPeerConnection` constructions of a trace. -/
def constructed (tr : List Call) : List Call :=
  tr.filter fun
    | .newPeerConnection _ => true
    | _ => false

/-- The `addTrack` calls of a trace. -/
def addTracks (tr : List Call) : List Call :=
  tr.filter fun
    | .addTrack _ _ _ => true
    | _ => false

/-- The `addIceCandidate` calls of a trace. -/
def iceCalls (tr : List Call) : List Call :=
  tr.filter fun
    | .addIceCandidate _ _ => true
    | _ => false

/-- The `alert` calls of a trace. -/
def alerts (tr : List Call) : List Call :=
  tr.filter fun
    | .alert _ => true
    | _ => false

/-- The `close` calls of a trace. -/
def closes (tr : List Call) : List Call :=
  tr.filter fun
    | .close _ => true
    | _ => false

/-- Events that start or continue a run of the start handler. -/
def isRunEvent : Event → Bool
  | .click => true
  | .settle _ _ => true
  | _ => false

/-- Calls that no event handler and no `.catch` of a candidate makes. -/
def runKind : Call → Bool
  | .addIceCandidate _ _ => false
  | .setRemoteVideoSrc _ => false
  | .consoleError _ _ => false
  | _ => true

/-- The part of the page the start handler reads and writes. -/
def core (w : World) : World :=
  { w with icePromises := [], remoteVideoSrc := none, trace := w.trace.filter runKind }

/-- The reply with which stream acquisition succeeds with stream `s`. -/
def acquired : Variant → Stream → Reply
  | .camera, s => .media s
  | .video, s => .played (.stream s)

/-- The six negotiation calls between connections `l` and `r`. -/
def sixCalls (l r : ConnId) (offer answer : Desc) : List Call :=
  [.createOffer l, .setLocalDescription l offer, .setRemoteDescription r offer,
   .createAnswer r, .setLocalDescription r answer, .setRemoteDescription l answer]

/-- The replies with which the six negotiation steps succeed. -/
def sixReplies (offer answer : Desc) : List Reply :=
  [.desc offer, .resolved, .resolved, .desc answer, .resolved, .resolved]

/-! ## Auxiliary definitions -/

/-- The page once a run has built its two connections, `0` the local one and `1`
the remote one, from stream `s`. -/
def Built (s : Stream) (w : World) : Prop :=
  w.stream = some s ∧ w.localConn = some 0 ∧ w.remoteConn = some 1 ∧
  w.iceHandlers = [(1, .toLocal), (0, .toRemote)] ∧ w.trackHandlers = [1] ∧
  (∃ pc, w.tasks = [pc] ∧ pc ≠ .awaitGetUserMedia ∧ pc ≠ .awaitPlay) ∧
  addTracks w.trace = s.tracks.map (fun t => Call.addTrack 0 t s) ∧
  constructed w.trace = [.newPeerConnection 0, .newPeerConnection 1]

/-- The page before any run has built connections: no candidate handler is
registered and no candidate has been forwarded. -/
def Quiet (w : World) : Prop :=
  w.iceHandlers = [] ∧ iceCalls w.trace = []

/-- The state of a run right after the click that started it. -/
def firstAwait : Variant → Pc
  | .camera => .awaitGetUserMedia
  | .video => .awaitPlay

/-- What each variant does with the acquired stream before it builds the
connections. -/
def acquireCalls : Variant → Stream → List Call
  | .camera, s => [.setLocalVideoSrc s]
  | .video, _ => [.captureStream, .consoleLog "Captured ESP32 camera stream:"]

/-- Where a candidate-discovered event is to be forwarded, for local connection
`l` and remote connection `r`: a candidate of one goes to the other, a null
candidate and an event of another connection go nowhere. -/
def forward (l r : ConnId) : Event → Option Call
  | .icecandidate c (some k) =>
      if c = l then some (.addIceCandidate r k)
      else if c = r then some (.addIceCandidate l k)
      else none
  | _ => none

/-- The replies with which stream acquisition fails: `getUserMedia` rejects
(camera), or `play()` rejects, `captureStream()` throws or returns a falsy value
(video). -/
def acquisitionFails : Variant → Reply → Bool
  | .camera, .rejected _ => true
  | .video, .rejected _ => true
  | .video, .played (.throws _) => true
  | .video, .played .falsy => true
  | _, _ => false

/-- The same event with a rejected `addIceCandidate` promise resolved instead. -/
def resolveIce : Event → Event
  | .iceSettle n _ => .iceSettle n none
  | ev => ev

/-- A stub stack: the local description of connection `c` is the argument of the
last `setLocalDescription` call made on it. -/
def localDescription (tr : List Call) (c : ConnId) : Option Desc :=
  tr.foldl
    (fun acc call =>
      match call with
      | .setLocalDescription c' d => if c' = c then some d else acc
      | _ => acc)
    none

/-- A stub stack: the remote description of connection `c` is the argument of
the last `setRemoteDescription` call made on it. -/
def remoteDescription (tr : List Call) (c : ConnId) : Option Desc :=
  tr.foldl
    (fun acc call =>
      match call with
      | .setRemoteDescription c' d => if c' = c then some d else acc
      | _ => acc)
    none

/-- A stream with two tracks, used in the examples. -/
def demoStream : Stream := ⟨5, [10, 11]⟩

/-- An offer, used in the examples. -/
def demoOffer : Desc := ⟨.offer, 7⟩

/-- An answer, used in the examples. -/
def demoAnswer : Desc := ⟨.answer, 8⟩

/-- An error, used in the examples. -/
def demoErr : Err := ⟨"boom"⟩

/-- A complete run of the video variant, with a candidate, a track and a
rejected `addIceCandidate` promise in between. -/
def demoHappy : List Event :=
  [.click, .settle 0 (.played (.stream demoStream)), .icecandidate 0 (some 3),
   .settle 0 (.desc demoOffer), .settle 0 .resolved, .track 1 [demoStream],
   .settle 0 .resolved, .settle 0 (.desc demoAnswer), .iceSettle 0 (some demoErr),
   .settle 0 .resolved, .settle 0 .resolved]

/-- A run of the camera variant up to the `setRemoteDescription(offer)` call on
the remote connection, with a candidate in between. -/
def demoUntilSetRemote : List Event :=
  [.click, .settle 0 (.media demoStream), .settle 0 (.desc demoOffer),
   .icecandidate 1 (some 4), .settle 0 .resolved]

/-- Two starts of the video variant, each building its connections, and then a
candidate discovered by the first local connection. -/
def demoDoubleStart : List Event :=
  [.click, .settle 0 (.played (.stream demoStream)), .click,
   .settle 1 (.played (.stream demoStream)), .icecandidate 0 (some 9)]

/-- A session of the video variant in which a second start builds its connections
while the first run awaits `setRemoteDescription(offer)`; every reply to the
first run is a success and the first run ends. -/
def demoOverlap : List Event :=
  [.click, .settle 0 (.played (.stream demoStream)), .settle 0 (.desc demoOffer),
   .settle 0 .resolved, .click, .settle 1 (.played (.stream demoStream)),
   .settle 0 .resolved, .settle 0 (.desc demoAnswer), .settle 0 .resolved,
   .settle 0 .resolved]

/-- The candidate-discovered events delivered to the connections of the first
run after a second start of the video variant has built its own. -/
def demoLateCandidates : List Event :=
  [.icecandidate 1 (some 9), .icecandidate 0 (some 8)]

/-- Two starts of the video variant, each building its connections, followed by
candidates of both connections of the first run. -/
def demoCrossed : List Event :=
  [.click, .settle 0 (.played (.stream demoStream)), .click,
   .settle 1 (.played (.stream demoStream))] ++ demoLateCandidates

/-! ## The start handler does not see candidate and track events -/

theorem core_step_other (v : Variant) (w : World) (ev : Event) (h : isRunEvent ev = false) :
    core (step v w ev) = core w := by
  cases ev with
  | click => simp [isRunEvent] at h
  | settle tid r => simp [isRunEvent] at h
  | icecandidate c cand =>
      simp only [step, onIceCandidate]
      split
      · rfl
      · split
        · rfl
        · split
          · rfl
          · simp [core, runKind]
  | track c streams =>
      simp only [step, onTrack]
      split
      · simp [core, runKind]
      · rfl
  | iceSettle n r =>
      simp only [step, onIceSettle]
      split
      · split
        · simp [core, runKind]
        · simp [core]
      · rfl


theorem core_emit (w : World) (cs : List Call) :
    core (w.emit cs) = core ((core w).emit cs) := by
  simp [core, World.emit, List.filter_append, List.filter_filter]

theorem core_setTask (w : World) (tid : Nat) (pc : Pc) :
    core (w.setTask tid pc) = (core w).setTask tid pc := rfl

theorem core_emit_setTask (w : World) (cs : List Call) (tid : Nat) (pc : Pc) :
    core ((w.emit cs).setTask tid pc) = core (((core w).emit cs).setTask tid pc) := by
  rw [core_setTask, core_setTask, core_emit]

theorem core_abort (v : Variant) (w : World) (tid : Nat) (e : Err) :
    core (w.abort v tid e) = core ((core w).abort v tid e) :=
  core_emit_setTask w _ tid _

theorem core_build (w : World) (tid : Nat) (s : Stream) (pre : List Call) :
    core (w.build tid s pre) = core ((core w).build tid s pre) := by
  simp [core, World.build, List.filter_append, List.filter_filter]

theorem core_core (w : World) : core (core w) = core w := by
  simp [core, List.filter_filter]

theorem core_resume (v : Variant) (w : World) (tid : Nat) (pc : Pc) (r : Reply) :
    core (resume v w tid pc r) = core (resume v (core w) tid pc r) := by
  have hl : (core w).localConn = w.localConn := rfl
  have hr : (core w).remoteConn = w.remoteConn := rfl
  cases pc <;> rcases r with e | _ | (e | _ | s) | s | d <;> simp only [resume, hl, hr] <;>
    first
    | with_reducible exact (core_core w).symm
    | with_reducible exact core_abort _ _ _ _
    | with_reducible exact core_emit_setTask _ _ _ _
    | with_reducible exact core_build _ _ _ _
    | (split <;> first
        | with_reducible exact core_abort _ _ _ _
        | with_reducible exact core_emit_setTask _ _ _ _
        | with_reducible exact core_setTask _ _ _)
    | (cases v <;>
        simp [core, World.emit, World.setTask, World.abort, catchBlock, List.filter_append,
          List.filter_filter, runKind] <;> rfl)

theorem core_step_run (v : Variant) (w : World) (ev : Event) (h : isRunEvent ev = true) :
    core (step v w ev) = core (step v (core w) ev) := by
  cases ev with
  | click =>
      have hd : (core w).disabled = w.disabled := rfl
      cases v <;> simp only [step, onClick, hd] <;> split <;>
        simp [core, runKind, List.filter_append, List.filter_filter] <;> rfl
  | settle tid r =>
      simp only [step]
      have : (core w).tasks = w.tasks := rfl
      rw [this]
      cases w.tasks[tid]? with
      | none => exact (core_core w).symm
      | some pc => exact core_resume v w tid pc r
  | icecandidate c cand => simp [isRunEvent] at h
  | track c streams => simp [isRunEvent] at h
  | iceSettle n r => simp [isRunEvent] at h

/-- Events other than clicks and the settling of awaited promises are invisible
to the start handler: the core of the page after a sequence of events is the
core after its clicks and settlings alone. -/
theorem core_run (v : Variant) (evs : List Event) :
    ∀ w w' : World, core w = core w' →
      core (run v w evs) = core (run v w' (evs.filter isRunEvent)) := by
  induction evs with
  | nil => intro w w' h; simpa [run] using h
  | cons ev evs ih =>
      intro w w' h
      cases hev : isRunEvent ev with
      | true =>
          have h1 : core (step v w ev) = core (step v w' ev) := by
            rw [core_step_run v w ev hev, core_step_run v w' ev hev, h]
          simpa [run, List.filter_cons, hev] using ih _ _ h1
      | false =>
          have h1 : core (step v w ev) = core w' := by
            rw [core_step_other v w ev hev, h]
          simpa [run, List.filter_cons, hev] using ih _ _ h1

theorem core_run_init (v : Variant) (evs : List Event) :
    core (run v World.init evs) = core (run v World.init (evs.filter isRunEvent)) :=
  core_run v evs World.init World.init rfl

theorem filter_core (p : Call → Bool) (hp : ∀ c, p c = true → runKind c = true) (w : World) :
    (core w).trace.filter p = w.trace.filter p := by
  simp only [core, List.filter_filter]
  apply List.filter_congr
  intro c _
  cases h : p c with
  | false => rfl
  | true => simp [hp c h]

theorem negotiation_core (w : World) : negotiation (core w).trace = negotiation w.trace := by
  apply filter_core
  intro c; cases c <;> simp [runKind]

theorem constructed_core (w : World) : constructed (core w).trace = constructed w.trace := by
  apply filter_core
  intro c; cases c <;> simp [runKind]

theorem addTracks_core (w : World) : addTracks (core w).trace = addTracks w.trace := by
  apply filter_core
  intro c; cases c <;> simp [runKind]

theorem alerts_core (w : World) : alerts (core w).trace = alerts w.trace := by
  apply filter_core
  intro c; cases c <;> simp [runKind]

theorem filter_map_addTrack_false (p : Call → Bool) (l : ConnId) (s : Stream)
    (hp : ∀ t, p (.addTrack l t s) = false) (ts : List Track) :
    (ts.map (fun t => Call.addTrack l t s)).filter p = [] := by
  induction ts with
  | nil => rfl
  | cons t ts ih => simp [List.filter_cons, hp, ih]

theorem filter_map_addTrack_true (p : Call → Bool) (l : ConnId) (s : Stream)
    (hp : ∀ t, p (.addTrack l t s) = true) (ts : List Track) :
    (ts.map (fun t => Call.addTrack l t s)).filter p = ts.map (fun t => Call.addTrack l t s) := by
  induction ts with
  | nil => rfl
  | cons t ts ih => simp [List.filter_cons, hp, ih]

/-! ## The trace only grows -/

theorem resume_trace_grows (v : Variant) (w : World) (tid : Nat) (pc : Pc) (r : Reply) :
    w.trace <+: (resume v w tid pc r).trace := by
  cases pc <;> rcases r with e | _ | (e | _ | s) | s | d <;> simp only [resume] <;>
    first
    | exact List.prefix_refl _
    | exact List.prefix_append _ _
    | (split <;> first | exact List.prefix_append _ _ | exact List.prefix_refl _)
    | (simp only [World.build, List.append_assoc]; exact List.prefix_append _ _)
    | (simp only [World.abort, World.emit, World.setTask, List.append_assoc]
       exact List.prefix_append _ _)

theorem step_trace_grows (v : Variant) (w : World) (ev : Event) :
    w.trace <+: (step v w ev).trace := by
  cases ev with
  | click =>
      cases v <;> simp only [step, onClick] <;> split <;>
        first | exact List.prefix_refl _ | exact List.prefix_append _ _
  | settle tid r =>
      simp only [step]
      split
      · exact resume_trace_grows v w tid _ r
      · exact List.prefix_refl _
  | icecandidate c cand =>
      simp only [step, onIceCandidate]
      repeat' split
      all_goals first | exact List.prefix_refl _ | exact List.prefix_append _ _
  | track c streams =>
      simp only [step, onTrack]
      split <;> first | exact List.prefix_refl _ | exact List.prefix_append _ _
  | iceSettle n r =>
      simp only [step, onIceSettle]
      repeat' split
      all_goals first | exact List.prefix_refl _ | exact List.prefix_append _ _

theorem run_trace_grows (v : Variant) (evs : List Event) :
    ∀ w : World, w.trace <+: (run v w evs).trace := by
  induction evs with
  | nil => intro w; exact List.prefix_refl _
  | cons ev evs ih =>
      intro w
      exact (step_trace_grows v w ev).trans (ih (step v w ev))

theorem run_append (v : Variant) (w : World) (a b : List Event) :
    run v w (a ++ b) = run v (run v w a) b := by
  simp [run, List.foldl_append]

/-! ## Once built, the connections and their handlers stay -/

theorem built_emit (s : Stream) (w : World) (cs : List Call) (hb : Built s w)
    (h1 : addTracks cs = []) (h2 : constructed cs = []) (pc : Pc)
    (hpc1 : pc ≠ .awaitGetUserMedia) (hpc2 : pc ≠ .awaitPlay) :
    Built s ((w.emit cs).setTask 0 pc) := by
  obtain ⟨a, b, c, d, e, ⟨pc0, f, _, _⟩, g, h⟩ := hb
  refine ⟨a, b, c, d, e, ⟨pc, ?_, hpc1, hpc2⟩, ?_, ?_⟩
  · simp [World.setTask, World.emit, f]
  · simp only [World.setTask, World.emit, addTracks, List.filter_append] at *
    rw [g, h1, List.append_nil]
  · simp only [World.setTask, World.emit, constructed, List.filter_append] at *
    rw [h, h2, List.append_nil]

theorem built_abort (v : Variant) (s : Stream) (w : World) (e : Err) (hb : Built s w) :
    Built s (w.abort v 0 e) := by
  apply built_emit s w _ hb
  · cases v <;> rfl
  · cases v <;> rfl
  · simp
  · simp

theorem built_resume (v : Variant) (s : Stream) (w : World) (pc : Pc) (r : Reply)
    (hb : Built s w) (ht : w.tasks = [pc]) : Built s (resume v w 0 pc r) := by
  have hl := hb.2.1
  have hr := hb.2.2.1
  obtain ⟨pc0, hpc0, n1, n2⟩ := hb.2.2.2.2.2.1
  rw [ht] at hpc0
  cases hpc0
  cases pc <;> rcases r with e | _ | (e | _ | s') | s' | d <;>
    simp only [resume, hl, hr] <;>
    first
    | exact hb
    | exact absurd rfl n1
    | exact absurd rfl n2
    | exact built_abort v s w _ hb
    | (refine built_emit s w _ hb ?_ ?_ _ ?_ ?_ <;> first | rfl | simp)
    | (cases v
       · have := built_emit s w [] hb rfl rfl .finished (by simp) (by simp)
         simpa [World.emit] using this
       · refine built_emit s w _ hb ?_ ?_ _ ?_ ?_ <;> first | rfl | simp)

theorem built_of_trace (s : Stream) (w w' : World) (cs : List Call) (hb : Built s w)
    (h1 : addTracks cs = []) (h2 : constructed cs = [])
    (hs : w'.stream = w.stream) (hl : w'.localConn = w.localConn)
    (hr : w'.remoteConn = w.remoteConn) (hi : w'.iceHandlers = w.iceHandlers)
    (ht : w'.trackHandlers = w.trackHandlers) (hk : w'.tasks = w.tasks)
    (htr : w'.trace = w.trace ++ cs) : Built s w' := by
  obtain ⟨a, b, c, d, e, f, g, h⟩ := hb
  refine ⟨hs ▸ a, hl ▸ b, hr ▸ c, hi ▸ d, ht ▸ e, hk ▸ f, ?_, ?_⟩
  · rw [htr]; simp only [addTracks, List.filter_append] at *; rw [g, h1, List.append_nil]
  · rw [htr]; simp only [constructed, List.filter_append] at *; rw [h, h2, List.append_nil]

theorem built_step (v : Variant) (s : Stream) (w : World) (ev : Event) (hb : Built s w)
    (hev : ev ≠ .click) : Built s (step v w ev) := by
  cases ev with
  | click => exact absurd rfl hev
  | settle tid r =>
      obtain ⟨pc, hpc, _, _⟩ := hb.2.2.2.2.2.1
      simp only [step, hpc]
      cases tid with
      | zero => simpa using built_resume v s w pc r hb hpc
      | succ n => simpa using hb
  | icecandidate c cand =>
      simp only [step, onIceCandidate]
      repeat' split
      all_goals first
        | exact hb
        | exact built_of_trace s w _ _ hb (by rfl) (by rfl) rfl rfl rfl rfl rfl rfl rfl
  | track c streams =>
      simp only [step, onTrack]
      split
      · exact built_of_trace s w _ _ hb (by rfl) (by rfl) rfl rfl rfl rfl rfl rfl rfl
      · exact hb
  | iceSettle n r =>
      simp only [step, onIceSettle]
      repeat' split
      all_goals first
        | exact hb
        | exact built_of_trace s w _ _ hb (by rfl) (by rfl) rfl rfl rfl rfl rfl rfl rfl

theorem built_run (v : Variant) (s : Stream) (evs : List Event) :
    ∀ w : World, Built s w → (∀ ev ∈ evs, ev ≠ .click) → Built s (run v w evs) := by
  induction evs with
  | nil => intro w hb _; exact hb
  | cons ev evs ih =>
      intro w hb h
      exact ih _ (built_step v s w ev hb (h ev (List.mem_cons_self _ _)))
        (fun e he => h e (List.mem_cons_of_mem _ he))

/-! ## Before the connections are built -/

theorem quiet_step (v : Variant) (w : World) (ev : Event) (hq : Quiet w)
    (hev : ∀ tid r, ev ≠ .settle tid r) : Quiet (step v w ev) := by
  obtain ⟨h1, h2⟩ := hq
  cases ev with
  | click =>
      cases v <;> simp only [step, onClick] <;> split <;>
        first
        | exact ⟨h1, h2⟩
        | (refine ⟨h1, ?_⟩; simp only [iceCalls, List.filter_append] at *; rw [h2]; rfl)
  | settle tid r => exact absurd rfl (hev tid r)
  | icecandidate c cand =>
      simp only [step, onIceCandidate, h1, List.lookup]
      exact ⟨h1, h2⟩
  | track c streams =>
      simp only [step, onTrack]
      split
      · refine ⟨h1, ?_⟩; simp only [iceCalls, List.filter_append] at *; rw [h2]; rfl
      · exact ⟨h1, h2⟩
  | iceSettle n r =>
      simp only [step, onIceSettle]
      repeat' split
      all_goals first
        | exact ⟨h1, h2⟩
        | (refine ⟨h1, ?_⟩; simp only [iceCalls, List.filter_append] at *; rw [h2]; rfl)

theorem quiet_run (v : Variant) (evs : List Event) :
    ∀ w : World, Quiet w → (∀ ev ∈ evs, ∀ tid r, ev ≠ .settle tid r) → Quiet (run v w evs) := by
  induction evs with
  | nil => intro w hq _; exact hq
  | cons ev evs ih =>
      intro w hq h
      exact ih _ (quiet_step v w ev hq (h ev (List.mem_cons_self _ _)))
        (fun e he => h e (List.mem_cons_of_mem _ he))

theorem no_settle_of_filter (pre : List Event) (h : pre.filter isRunEvent = [.click]) :
    ∀ ev ∈ pre, ∀ tid r, ev ≠ .settle tid r := by
  intro ev hev tid r heq
  subst heq
  have : Event.settle tid r ∈ pre.filter isRunEvent := List.mem_filter.mpr ⟨hev, rfl⟩
  rw [h] at this
  simp at this

theorem constructed_core_eq (w w' : World) (h : core w = core w') :
    constructed w.trace = constructed w'.trace := by
  rw [← constructed_core w, ← constructed_core w', h]

theorem addTracks_core_eq (w w' : World) (h : core w = core w') :
    addTracks w.trace = addTracks w'.trace := by
  rw [← addTracks_core w, ← addTracks_core w', h]

theorem core_fields (w w' : World) (h : core w = core w') :
    w.stream = w'.stream ∧ w.localConn = w'.localConn ∧ w.remoteConn = w'.remoteConn ∧
    w.nextConn = w'.nextConn ∧ w.iceHandlers = w'.iceHandlers ∧
    w.trackHandlers = w'.trackHandlers ∧ w.tasks = w'.tasks ∧ w.disabled = w'.disabled := by
  have e1 : w.stream = (core w).stream := rfl
  have e2 : w.localConn = (core w).localConn := rfl
  have e3 : w.remoteConn = (core w).remoteConn := rfl
  have e4 : w.nextConn = (core w).nextConn := rfl
  have e5 : w.iceHandlers = (core w).iceHandlers := rfl
  have e6 : w.trackHandlers = (core w).trackHandlers := rfl
  have e7 : w.tasks = (core w).tasks := rfl
  have e8 : w.disabled = (core w).disabled := rfl
  rw [e1, e2, e3, e4, e5, e6, e7, e8, h]
  exact ⟨rfl, rfl, rfl, rfl, rfl, rfl, rfl, rfl⟩

theorem after_click (v : Variant) (pre : List Event) (h : pre.filter isRunEvent = [.click]) :
    (run v World.init pre).tasks = [firstAwait v] ∧ (run v World.init pre).nextConn = 0 ∧
    (run v World.init pre).iceHandlers = [] ∧ (run v World.init pre).trackHandlers = [] ∧
    constructed (run v World.init pre).trace = [] ∧
    addTracks (run v World.init pre).trace = [] ∧
    iceCalls (run v World.init pre).trace = [] := by
  have hc := core_run_init v pre
  rw [h] at hc
  obtain ⟨_, _, _, f4, f5, f6, f7, _⟩ := core_fields _ _ hc
  have g1 := constructed_core_eq _ _ hc
  have g2 := addTracks_core_eq _ _ hc
  have hq := quiet_run v pre World.init ⟨rfl, rfl⟩ (no_settle_of_filter pre h)
  refine ⟨f7.trans ?_, f4.trans ?_, f5.trans ?_, f6.trans ?_, g1.trans ?_, g2.trans ?_, hq.2⟩ <;>
    cases v <;> rfl

theorem step_acquired (v : Variant) (s : Stream) (w : World) (h : w.tasks = [firstAwait v]) :
    step v w (.settle 0 (acquired v s)) = w.build 0 s (acquireCalls v s) := by
  cases v <;> simp [step, h, firstAwait, acquired, resume, acquireCalls]

theorem built_build (s : Stream) (w : World) (pre : List Call) (pc : Pc)
    (h1 : w.tasks = [pc]) (h2 : w.nextConn = 0) (h3 : w.iceHandlers = [])
    (h4 : w.trackHandlers = []) (h5 : constructed w.trace = []) (h6 : addTracks w.trace = [])
    (h7 : constructed pre = []) (h8 : addTracks pre = []) : Built s (w.build 0 s pre) := by
  refine ⟨rfl, ?_, ?_, ?_, ?_, ⟨.awaitCreateOffer, ?_, by simp, by simp⟩, ?_, ?_⟩
  · simp [World.build, h2]
  · simp [World.build, h2]
  · simp [World.build, h2, h3]
  · simp [World.build, h2, h4]
  · simp [World.build, h1]
  · simp only [World.build, addTracks, List.filter_append, h2] at *
    rw [h6, h8]
    simp [addTracks]
  · simp only [World.build, constructed, List.filter_append, h2] at *
    rw [h5, h7]
    simp [constructed]

theorem built_after_acquire (v : Variant) (s : Stream) (pre : List Event)
    (h : pre.filter isRunEvent = [.click]) :
    Built s (step v (run v World.init pre) (.settle 0 (acquired v s))) ∧
    iceCalls (step v (run v World.init pre) (.settle 0 (acquired v s))).trace = [] := by
  obtain ⟨h1, h2, h3, h4, h5, h6, h7⟩ := after_click v pre h
  rw [step_acquired v s _ h1]
  refine ⟨built_build s _ _ _ h1 h2 h3 h4 h5 h6 ?_ ?_, ?_⟩
  · cases v <;> rfl
  · cases v <;> rfl
  · simp only [World.build, iceCalls, List.filter_append] at *
    rw [h7, filter_map_addTrack_false _ _ s (fun _ => rfl)]
    cases v <;> rfl

/-! ## Candidate forwarding -/

theorem iceCalls_resume (v : Variant) (w : World) (tid : Nat) (pc : Pc) (r : Reply) :
    iceCalls (resume v w tid pc r).trace = iceCalls w.trace := by
  cases pc <;> rcases r with e | _ | (e | _ | s) | s | d <;> simp only [resume] <;>
    first
    | rfl
    | (simp only [World.build, iceCalls, List.filter_append]
       rw [filter_map_addTrack_false _ _ _ (fun _ => rfl)]
       simp [List.filter_cons])
    | (split <;> cases v <;>
        simp [World.abort, World.emit, World.setTask, catchBlock, iceCalls, List.filter_append,
          List.filter_cons])
    | (cases v <;>
        simp [World.abort, World.emit, World.setTask, catchBlock, iceCalls, List.filter_append,
          List.filter_cons])

theorem iceCalls_step_built (v : Variant) (s : Stream) (w : World) (ev : Event)
    (hb : Built s w) (hev : ev ≠ .click) :
    iceCalls (step v w ev).trace = iceCalls w.trace ++ (forward 0 1 ev).toList := by
  obtain ⟨_, hl, hr, hi, _, _, _, _⟩ := hb
  cases ev with
  | click => exact absurd rfl hev
  | settle tid r =>
      simp only [step, forward, Option.toList, List.append_nil]
      split
      · exact iceCalls_resume v w tid _ r
      · rfl
  | icecandidate c cand =>
      cases cand with
      | none =>
          simp only [step, onIceCandidate, forward, Option.toList, List.append_nil]
          split <;> rfl
      | some k =>
          simp only [step, onIceCandidate, forward, hi, hl, hr]
          by_cases h0 : c = 0
          · subst h0
            simp [List.lookup, iceCalls, List.filter_append, List.filter_cons]
          · by_cases h1 : c = 1
            · subst h1
              simp [List.lookup, iceCalls, List.filter_append, List.filter_cons]
            · have e1 : (c == 1) = false := by simpa using h1
              have e0 : (c == 0) = false := by simpa using h0
              simp [List.lookup, e1, e0, h0, h1]
  | track c streams =>
      simp only [step, onTrack, forward, Option.toList, List.append_nil]
      split
      · simp [iceCalls, List.filter_append, List.filter_cons]
      · rfl
  | iceSettle n r =>
      simp only [step, onIceSettle, forward, Option.toList, List.append_nil]
      repeat' split
      all_goals first
        | rfl
        | simp [iceCalls, List.filter_append, List.filter_cons]

theorem iceCalls_run_built (v : Variant) (s : Stream) (post : List Event) :
    ∀ w : World, Built s w → (∀ ev ∈ post, ev ≠ .click) →
      iceCalls (run v w post).trace = iceCalls w.trace ++ post.filterMap (forward 0 1) := by
  induction post with
  | nil => intro w _ _; simp [run]
  | cons ev post ih =>
      intro w hb h
      have hev := h ev (List.mem_cons_self _ _)
      have := ih _ (built_step v s w ev hb hev) (fun e he => h e (List.mem_cons_of_mem _ he))
      rw [iceCalls_step_built v s w ev hb hev] at this
      show iceCalls (run v (step v w ev) post).trace = _
      rw [this, List.filterMap_cons]
      cases forward 0 1 ev <;> simp

/-! ## The playback sink -/

theorem remoteVideoSrc_resume (v : Variant) (w : World) (tid : Nat) (pc : Pc) (r : Reply) :
    (resume v w tid pc r).remoteVideoSrc = w.remoteVideoSrc := by
  cases pc <;> rcases r with e | _ | (e | _ | s) | s | d <;> simp only [resume] <;>
    first
    | rfl
    | (split <;> rfl)

theorem remoteVideoSrc_step (v : Variant) (s : Stream) (w : World) (ev : Event)
    (hb : Built s w) (hev : ∀ ss, ev ≠ .track 1 ss) :
    (step v w ev).remoteVideoSrc = w.remoteVideoSrc := by
  obtain ⟨_, _, _, _, ht, _, _, _⟩ := hb
  cases ev with
  | click => cases v <;> simp only [step, onClick] <;> split <;> rfl
  | settle tid r =>
      simp only [step]
      split
      · exact remoteVideoSrc_resume v w tid _ r
      · rfl
  | icecandidate c cand =>
      simp only [step, onIceCandidate]
      repeat' split
      all_goals rfl
  | track c streams =>
      have hc : c ≠ 1 := fun h => hev streams (h ▸ rfl)
      simp [step, onTrack, ht, hc]
  | iceSettle n r =>
      simp only [step, onIceSettle]
      repeat' split
      all_goals rfl

theorem remoteVideoSrc_run (v : Variant) (s : Stream) (post : List Event) :
    ∀ w : World, Built s w → (∀ ev ∈ post, ev ≠ .click) → (∀ ss, .track 1 ss ∉ post) →
      (run v w post).remoteVideoSrc = w.remoteVideoSrc := by
  induction post with
  | nil => intro w _ _ _; rfl
  | cons ev post ih =>
      intro w hb h ht
      have hev := h ev (List.mem_cons_self _ _)
      have hne : ∀ ss, ev ≠ .track 1 ss := fun ss he => ht ss (he ▸ List.mem_cons_self _ _)
      have := ih _ (built_step v s w ev hb hev) (fun e he => h e (List.mem_cons_of_mem _ he))
        (fun ss he => ht ss (List.mem_cons_of_mem _ he))
      show (run v (step v w ev) post).remoteVideoSrc = _
      rw [this, remoteVideoSrc_step v s w ev hb hne]

theorem remoteVideoSrc_track (v : Variant) (s : Stream) (w : World) (ss : List Stream)
    (hb : Built s w) : (step v w (.track 1 ss)).remoteVideoSrc = ss.head? := by
  simp [step, onTrack, hb.2.2.2.2.1]

/-! ## A finished run -/

theorem run_finished (v : Variant) (evs : List Event) :
    ∀ w : World, w.tasks = [.finished] → (∀ ev ∈ evs, isRunEvent ev = true ∧ ev ≠ .click) →
      run v w evs = w := by
  induction evs with
  | nil => intro w _ _; rfl
  | cons ev evs ih =>
      intro w hw h
      have hs : step v w ev = w := by
        obtain ⟨h1, h2⟩ := h ev (List.mem_cons_self _ _)
        cases ev with
        | click => exact absurd rfl h2
        | settle tid r =>
            simp only [step, hw]
            cases tid with
            | zero => cases r <;> simp [resume]
            | succ n => simp
        | icecandidate c cand => simp [isRunEvent] at h1
        | track c streams => simp [isRunEvent] at h1
        | iceSettle n r => simp [isRunEvent] at h1
      show run v (step v w ev) evs = w
      rw [hs]
      exact ih w hw (fun e he => h e (List.mem_cons_of_mem _ he))

theorem filter_no_click (post : List Event) (h : ∀ ev ∈ post, ev ≠ .click) :
    ∀ ev ∈ post.filter isRunEvent, isRunEvent ev = true ∧ ev ≠ .click := by
  intro ev hev
  obtain ⟨h1, h2⟩ := List.mem_filter.mp hev
  exact ⟨h2, h ev h1⟩

theorem filter_resolveIce (evs : List Event) :
    (evs.map resolveIce).filter isRunEvent = evs.filter isRunEvent := by
  induction evs with
  | nil => rfl
  | cons ev evs ih =>
      cases ev <;> simp [resolveIce, isRunEvent, List.filter_cons, ih]

/-! ## Descriptions of the stub stack and `close` -/

theorem foldl_filter_skip {β : Type} (f : β → Call → β) (p : Call → Bool)
    (h : ∀ acc c, p c = false → f acc c = acc) (tr : List Call) :
    ∀ acc : β, (tr.filter p).foldl f acc = tr.foldl f acc := by
  induction tr with
  | nil => intro acc; rfl
  | cons c tr ih =>
      intro acc
      cases hp : p c with
      | true => simp [List.filter_cons, hp, ih]
      | false => simp [List.filter_cons, hp, ih, h acc c hp]

theorem localDescription_negotiation (tr : List Call) (c : ConnId) :
    localDescription (negotiation tr) c = localDescription tr c := by
  apply foldl_filter_skip
  intro acc call h
  cases call <;> first | rfl | simp at h

theorem remoteDescription_negotiation (tr : List Call) (c : ConnId) :
    remoteDescription (negotiation tr) c = remoteDescription tr c := by
  apply foldl_filter_skip
  intro acc call h
  cases call <;> first | rfl | simp at h

theorem closes_resume (v : Variant) (w : World) (tid : Nat) (pc : Pc) (r : Reply) :
    closes (resume v w tid pc r).trace = closes w.trace := by
  cases pc <;> rcases r with e | _ | (e | _ | s) | s | d <;> simp only [resume] <;>
    first
    | rfl
    | (simp only [World.build, closes, List.filter_append]
       rw [filter_map_addTrack_false _ _ _ (fun _ => rfl)]
       simp [List.filter_cons])
    | (split <;> cases v <;>
        simp [World.abort, World.emit, World.setTask, catchBlock, closes, List.filter_append,
          List.filter_cons])
    | (cases v <;>
        simp [World.abort, World.emit, World.setTask, catchBlock, closes, List.filter_append,
          List.filter_cons])

theorem closes_step (v : Variant) (w : World) (ev : Event) :
    closes (step v w ev).trace = closes w.trace := by
  cases ev with
  | click =>
      cases v <;> simp only [step, onClick] <;> split <;>
        first | rfl | simp [closes, List.filter_append, List.filter_cons]
  | settle tid r =>
      simp only [step]
      split
      · exact closes_resume v w tid _ r
      · rfl
  | icecandidate c cand =>
      simp only [step, onIceCandidate]
      repeat' split
      all_goals first | rfl | simp [closes, List.filter_append, List.filter_cons]
  | track c streams =>
      simp only [step, onTrack]
      split <;> first | rfl | simp [closes, List.filter_append, List.filter_cons]
  | iceSettle n r =>
      simp only [step, onIceSettle]
      repeat' split
      all_goals first | rfl | simp [closes, List.filter_append, List.filter_cons]

theorem closes_run (v : Variant) (evs : List Event) :
    ∀ w : World, closes (run v w evs).trace = closes w.trace := by
  induction evs with
  | nil => intro w; rfl
  | cons ev evs ih =>
      intro w
      show closes (run v (step v w ev) evs).trace = _
      rw [ih, closes_step]

/-! ## Scripts: the clicks and settlings of one run -/

theorem step_rejected (v : Variant) (w : World) (pc : Pc) (e : Err)
    (ht : w.tasks = [pc]) (h1 : pc ≠ .awaitGetUserMedia) (h2 : pc ≠ .finished) :
    step v w (.settle 0 (.rejected e)) = w.abort v 0 e := by
  simp only [step, ht, List.getElem?_cons_zero]
  cases pc <;> simp_all [resume]

theorem happy_negotiation (v : Variant) (evs : List Event) (s : Stream) (offer answer : Desc)
    (h : evs.filter isRunEvent
      = .click :: .settle 0 (acquired v s) :: (sixReplies offer answer).map (.settle 0)) :
    (run v World.init evs).localConn = some 0 ∧ (run v World.init evs).remoteConn = some 1 ∧
    negotiation (run v World.init evs).trace = sixCalls 0 1 offer answer := by
  have hc := core_run_init v evs
  rw [h] at hc
  obtain ⟨_, f2, f3, _⟩ := core_fields _ _ hc
  rw [f2, f3, ← negotiation_core, hc, negotiation_core]
  cases v <;>
    simp [run, step, sixReplies, acquired, onClick, World.init, resume, World.build, World.emit,
      World.setTask] <;>
    simp [negotiation, List.filter_cons, List.filter_append, sixCalls]

theorem failed_core (v : Variant) (pre post : List Event) (s : Stream) (offer answer : Desc)
    (e : Err) (k : Nat)
    (hpre : pre.filter isRunEvent
      = .click :: .settle 0 (acquired v s) :: ((sixReplies offer answer).take k).map (.settle 0))
    (hpost : post.filter isRunEvent = []) :
    core (run v World.init (pre ++ .settle 0 (.rejected e) :: post))
      = core (run v World.init
          (.click :: .settle 0 (acquired v s) ::
            (((sixReplies offer answer).take k).map (.settle 0) ++ [.settle 0 (.rejected e)]))) := by
  have hc := core_run_init v (pre ++ .settle 0 (.rejected e) :: post)
  rw [List.filter_append, List.filter_cons, hpre, hpost] at hc
  simpa [isRunEvent] using hc

theorem failed_negotiation (v : Variant) (pre post : List Event) (s : Stream)
    (offer answer : Desc) (e : Err) (k : Nat) (hk : k < 6)
    (hpre : pre.filter isRunEvent
      = .click :: .settle 0 (acquired v s) :: ((sixReplies offer answer).take k).map (.settle 0))
    (hpost : post.filter isRunEvent = []) :
    negotiation (run v World.init (pre ++ .settle 0 (.rejected e) :: post)).trace
        = (sixCalls 0 1 offer answer).take (k + 1) := by
  have hc := failed_core v pre post s offer answer e k hpre hpost
  rw [← negotiation_core, hc, negotiation_core]
  interval_cases k <;> cases v <;>
    simp [run, step, sixReplies, acquired, onClick, World.init, resume, World.build,
      World.emit, World.setTask, World.abort, catchBlock] <;>
    simp [negotiation, List.filter_cons, List.filter_append, sixCalls]

theorem failed_alerts (v : Variant) (pre post : List Event) (s : Stream)
    (offer answer : Desc) (e : Err) (k : Nat) (hk : k < 6)
    (hpre : pre.filter isRunEvent
      = .click :: .settle 0 (acquired v s) :: ((sixReplies offer answer).take k).map (.settle 0))
    (hpost : post.filter isRunEvent = []) :
    alerts (run v World.init (pre ++ .settle 0 (.rejected e) :: post)).trace
        = match v with
          | .camera => []
          | .video => [.alert ("Failed to start WebRTC: " ++ e.message)] := by
  have hc := failed_core v pre post s offer answer e k hpre hpost
  rw [← alerts_core, hc, alerts_core]
  interval_cases k <;> cases v <;>
    simp [run, step, sixReplies, acquired, onClick, World.init, resume, World.build,
      World.emit, World.setTask, World.abort, catchBlock] <;>
    simp [alerts, List.filter_cons, List.filter_append]

theorem failed_logged (v : Variant) (pre post : List Event) (s : Stream)
    (offer answer : Desc) (e : Err) (k : Nat) (hk : k < 6)
    (hpre : pre.filter isRunEvent
      = .click :: .settle 0 (acquired v s) :: ((sixReplies offer answer).take k).map (.settle 0)) :
    Call.consoleError (catchLogMsg v) e
        ∈ (run v World.init (pre ++ .settle 0 (.rejected e) :: post)).trace := by
  have hc := core_run_init v pre
  rw [hpre] at hc
  have ht := (core_fields _ _ hc).2.2.2.2.2.2.1
  have hw : ∃ pc, (run v World.init pre).tasks = [pc] ∧ pc ≠ .awaitGetUserMedia
      ∧ pc ≠ .finished := by
    rw [ht]
    interval_cases k <;> cases v <;>
      simp [run, step, sixReplies, acquired, onClick, World.init, resume, World.build,
        World.emit, World.setTask]
  obtain ⟨pc, hpc, h1, h2⟩ := hw
  rw [run_append]
  apply (run_trace_grows v post _).subset
  show _ ∈ (run v (step v (run v World.init pre) (.settle 0 (.rejected e))) []).trace
  rw [run, List.foldl_nil, step_rejected v _ pc e hpc h1 h2]
  cases v <;> simp [World.abort, World.emit, World.setTask, catchBlock, catchLogMsg]

theorem built_reached (v : Variant) (s : Stream) (pre post : List Event)
    (hpre : pre.filter isRunEvent = [.click]) (hpost : ∀ ev ∈ post, ev ≠ .click) :
    Built s (run v World.init (pre ++ .settle 0 (acquired v s) :: post)) ∧
    iceCalls (run v World.init (pre ++ .settle 0 (acquired v s) :: post)).trace
      = post.filterMap (forward 0 1) := by
  obtain ⟨hb, hi⟩ := built_after_acquire v s pre hpre
  rw [run_append]
  refine ⟨built_run v s post _ hb hpost, ?_⟩
  have := iceCalls_run_built v s post _ hb hpost
  rw [hi, List.nil_append] at this
  exact this

/-! ## The claims -/

/-- C1, as stated, fails: in the video variant a second start that builds its
connections while the first run awaits `setRemoteDescription(offer)` moves the
module variables to connections `2` and `3`. The first run built connections `0`
and `1`, no reply in the session is a rejection and the first run ends, yet
`createAnswer` and `setLocalDescription(answer)` are never called on connection
`1` nor `setRemoteDescription(answer)` on connection `0`: they are called on
connections `3`, `3` and `2`. -/
theorem overlapped_run_leaves_its_connections :
    (run .video World.init (demoOverlap.take 2)).localConn = some 0 ∧
      (run .video World.init (demoOverlap.take 2)).remoteConn = some 1 ∧
      (∀ tid e, Event.settle tid (.rejected e) ∉ demoOverlap) ∧
      (run .video World.init demoOverlap).tasks[0]? = some .finished ∧
      negotiation (run .video World.init demoOverlap).trace
        = [.createOffer 0, .setLocalDescription 0 demoOffer, .setRemoteDescription 1 demoOffer,
           .createOffer 2, .createAnswer 3, .setLocalDescription 3 demoAnswer,
           .setRemoteDescription 2 demoAnswer] ∧
      Call.createAnswer 1 ∉ (run .video World.init demoOverlap).trace ∧
      Call.setLocalDescription 1 demoAnswer ∉ (run .video World.init demoOverlap).trace ∧
      Call.setRemoteDescription 0 demoAnswer ∉ (run .video World.init demoOverlap).trace := by
  refine ⟨by decide, by decide, ?_, by decide, by decide, by decide, by decide, by decide⟩
  intro tid e h
  simp [demoOverlap] at h

/-- C1, amended. In both variants, when the clicks and settled promises of a
session are one click, a successful stream acquisition and six successful
negotiation replies, with candidate and track events anywhere in between, the negotiation
calls of the whole trace are exactly `createOffer`, `setLocalDescription(offer)`
on the local connection, `setRemoteDescription(offer)`, `createAnswer`,
`setLocalDescription(answer)` on the remote connection and
`setRemoteDescription(answer)` on the local one, once each and in this order,
with `offer` and `answer` the values the two create calls resolved with. -/
theorem negotiation_calls_exact (v : Variant) (evs : List Event) (s : Stream)
    (offer answer : Desc)
    (h : evs.filter isRunEvent
      = .click :: .settle 0 (acquired v s) :: (sixReplies offer answer).map (.settle 0)) :
    (run v World.init evs).localConn = some 0 ∧ (run v World.init evs).remoteConn = some 1 ∧
    negotiation (run v World.init evs).trace
      = [.createOffer 0, .setLocalDescription 0 offer, .setRemoteDescription 1 offer,
         .createAnswer 1, .setLocalDescription 1 answer, .setRemoteDescription 0 answer] :=
  happy_negotiation v evs s offer answer h

theorem negotiation_calls_exact_witness :
    demoHappy.filter isRunEvent
        = .click :: .settle 0 (acquired .video demoStream)
            :: (sixReplies demoOffer demoAnswer).map (.settle 0) ∧
      negotiation (run .video World.init demoHappy).trace
        = [.createOffer 0, .setLocalDescription 0 demoOffer, .setRemoteDescription 1 demoOffer,
           .createAnswer 1, .setLocalDescription 1 demoAnswer,
           .setRemoteDescription 0 demoAnswer] :=
  ⟨by decide,
    (negotiation_calls_exact .video demoHappy demoStream demoOffer demoAnswer (by decide)).2.2⟩

/-- C2. In both variants, when the step at position `k` (counted from 0) of the
six negotiation steps rejects with `e` after the `k` steps before it succeeded,
the negotiation calls of the whole trace are the first `k + 1` of the six, once
each and in order, so no later step is invoked, and `console.error` is called
with `e`. When the rejected step is `setRemoteDescription(offer)` on the remote
connection, `setRemoteDescription` is never called on the local connection. -/
theorem rejection_stops_negotiation (v : Variant) (pre post : List Event) (s : Stream)
    (offer answer : Desc) (e : Err) (k : Nat) (hk : k < 6)
    (hpre : pre.filter isRunEvent
      = .click :: .settle 0 (acquired v s) :: ((sixReplies offer answer).take k).map (.settle 0))
    (hpost : post.filter isRunEvent = []) :
    negotiation (run v World.init (pre ++ .settle 0 (.rejected e) :: post)).trace
        = (sixCalls 0 1 offer answer).take (k + 1) ∧
      Call.consoleError (catchLogMsg v) e
        ∈ (run v World.init (pre ++ .settle 0 (.rejected e) :: post)).trace ∧
      (k = 2 → ∀ d, Call.setRemoteDescription 0 d
        ∉ (run v World.init (pre ++ .settle 0 (.rejected e) :: post)).trace) := by
  have hn := failed_negotiation v pre post s offer answer e k hk hpre hpost
  refine ⟨hn, failed_logged v pre post s offer answer e k hk hpre, ?_⟩
  intro h2 d hd
  subst h2
  have : Call.setRemoteDescription 0 d
      ∈ negotiation (run v World.init (pre ++ .settle 0 (.rejected e) :: post)).trace :=
    List.mem_filter.mpr ⟨hd, rfl⟩
  rw [hn] at this
  simp [sixCalls] at this

theorem rejection_stops_negotiation_witness :
    negotiation (run .camera World.init
        (demoUntilSetRemote ++ .settle 0 (.rejected demoErr) :: [.icecandidate 0 (some 6)])).trace
      = [.createOffer 0, .setLocalDescription 0 demoOffer, .setRemoteDescription 1 demoOffer] ∧
    Call.consoleError "Error creating/handling offer/answer" demoErr
      ∈ (run .camera World.init
        (demoUntilSetRemote ++ .settle 0 (.rejected demoErr) :: [.icecandidate 0 (some 6)])).trace :=
  have h := rejection_stops_negotiation .camera demoUntilSetRemote [.icecandidate 0 (some 6)]
    demoStream demoOffer demoAnswer demoErr 2 (by decide) (by decide) (by decide)
  ⟨h.1, h.2.1⟩

/-- C3. In both variants, when stream acquisition fails in a session with one
click, no `RTCPeerConnection` is ever constructed: in the camera variant when
`getUserMedia` rejects, in the video variant when `play()` rejects, when
`captureStream()` throws, or when it returns a falsy value. -/
theorem no_connection_without_stream (v : Variant) (pre post : List Event) (r : Reply)
    (hpre : pre.filter isRunEvent = [.click]) (hr : acquisitionFails v r = true)
    (hpost : ∀ ev ∈ post, ev ≠ .click) :
    constructed (run v World.init (pre ++ .settle 0 r :: post)).trace = [] := by
  have hc := core_run_init v (pre ++ .settle 0 r :: post)
  rw [List.filter_append, List.filter_cons, hpre] at hc
  simp only [isRunEvent, if_true, List.singleton_append] at hc
  have hsplit : (Event.click :: .settle 0 r :: post.filter isRunEvent)
      = [.click, .settle 0 r] ++ post.filter isRunEvent := rfl
  have hfin : (run v World.init [.click, .settle 0 r]).tasks = [.finished] := by
    cases v <;> rcases r with e | _ | (e | _ | s) | s | d <;>
      first
      | (simp [acquisitionFails] at hr; done)
      | rfl
  have hrun : run v World.init (.click :: .settle 0 r :: post.filter isRunEvent)
      = run v World.init [.click, .settle 0 r] := by
    rw [hsplit, run_append, run_finished v _ _ hfin (filter_no_click post hpost)]
  rw [hrun] at hc
  rw [constructed_core_eq _ _ hc]
  cases v <;> rcases r with e | _ | (e | _ | s) | s | d <;>
    first
    | (simp [acquisitionFails] at hr; done)
    | rfl

theorem no_connection_without_stream_witness :
    acquisitionFails .video (.played .falsy) = true ∧
      constructed (run .video World.init
        ([.icecandidate 0 (some 1), .click] ++ .settle 0 (.played .falsy)
          :: [.settle 0 (.desc demoOffer), .track 1 [demoStream]])).trace = [] :=
  ⟨rfl, no_connection_without_stream .video [.icecandidate 0 (some 1), .click]
    [.settle 0 (.desc demoOffer), .track 1 [demoStream]] (.played .falsy)
    (by decide) rfl (by decide)⟩

/-- C4. In both variants, in a session with one click whose stream acquisition
yields stream `s`, whatever events follow, the `addTrack` calls of the whole
trace are one call on the local connection per track of `s`, in the track order
and each with `s` as second argument; there are as many as `s` has tracks and
none is on the remote connection. -/
theorem addTrack_once_per_track (v : Variant) (s : Stream) (pre post : List Event)
    (hpre : pre.filter isRunEvent = [.click]) (hpost : ∀ ev ∈ post, ev ≠ .click) :
    (run v World.init (pre ++ .settle 0 (acquired v s) :: post)).localConn = some 0 ∧
    (run v World.init (pre ++ .settle 0 (acquired v s) :: post)).remoteConn = some 1 ∧
    addTracks (run v World.init (pre ++ .settle 0 (acquired v s) :: post)).trace
      = s.tracks.map (fun t => Call.addTrack 0 t s) ∧
    (addTracks (run v World.init (pre ++ .settle 0 (acquired v s) :: post)).trace).length
      = s.tracks.length ∧
    ∀ t s', Call.addTrack 1 t s'
      ∉ (run v World.init (pre ++ .settle 0 (acquired v s) :: post)).trace := by
  obtain ⟨⟨_, hl, hr, _, _, _, ha, _⟩, _⟩ := built_reached v s pre post hpre hpost
  refine ⟨hl, hr, ha, by rw [ha, List.length_map], ?_⟩
  intro t s' hm
  have : Call.addTrack 1 t s'
      ∈ addTracks (run v World.init (pre ++ .settle 0 (acquired v s) :: post)).trace :=
    List.mem_filter.mpr ⟨hm, rfl⟩
  rw [ha] at this
  simp at this

theorem addTrack_once_per_track_witness :
    addTracks (run .camera World.init
        ([.click] ++ .settle 0 (acquired .camera demoStream)
          :: [.settle 0 (.desc demoOffer), .icecandidate 0 (some 2)])).trace
      = [.addTrack 0 10 demoStream, .addTrack 0 11 demoStream] :=
  (addTrack_once_per_track .camera demoStream [.click]
    [.settle 0 (.desc demoOffer), .icecandidate 0 (some 2)] (by decide) (by decide)).2.2.1

/-- C5, as stated, fails: in the video variant, after a second start has built
connections `2` and `3`, a candidate of connection `1`, the first run's remote
connection, is passed to connection `2` and not to connection `0`, and a
candidate of connection `0` is passed to connection `3` and not to connection
`1`. -/
theorem late_candidates_reach_other_run :
    (run .video World.init (demoCrossed.take 2)).localConn = some 0 ∧
      (run .video World.init (demoCrossed.take 2)).remoteConn = some 1 ∧
      iceCalls (run .video World.init demoCrossed).trace
        = [.addIceCandidate 2 9, .addIceCandidate 3 8] ∧
      iceCalls (run .video World.init demoCrossed).trace
        ≠ demoLateCandidates.filterMap (forward 0 1) ∧
      Call.addIceCandidate 0 9 ∉ (run .video World.init demoCrossed).trace ∧
      Call.addIceCandidate 1 8 ∉ (run .video World.init demoCrossed).trace := by
  refine ⟨by decide, by decide, by decide, by decide, by decide, by decide⟩

/-- C5, amended. In both variants, in a session with one click, for every
sequence of events that follows the building of the connections, the `addIceCandidate` calls
of the whole trace are, in order, one call per candidate-discovered event with a
non-null candidate: on the remote connection with that candidate for an event of
the local connection, on the local connection for an event of the remote one.
An event with a null candidate adds no call. -/
theorem candidates_cross_forwarded (v : Variant) (s : Stream) (pre post : List Event)
    (hpre : pre.filter isRunEvent = [.click]) (hpost : ∀ ev ∈ post, ev ≠ .click) :
    (run v World.init (pre ++ .settle 0 (acquired v s) :: post)).localConn = some 0 ∧
    (run v World.init (pre ++ .settle 0 (acquired v s) :: post)).remoteConn = some 1 ∧
    iceCalls (run v World.init (pre ++ .settle 0 (acquired v s) :: post)).trace
      = post.filterMap (forward 0 1) := by
  obtain ⟨⟨_, hl, hr, _⟩, hi⟩ := built_reached v s pre post hpre hpost
  exact ⟨hl, hr, hi⟩

theorem candidates_cross_forwarded_witness :
    iceCalls (run .video World.init
        ([.click] ++ .settle 0 (acquired .video demoStream)
          :: [.icecandidate 0 (some 2), .icecandidate 1 (some 3), .icecandidate 0 none,
              .settle 0 (.rejected demoErr), .icecandidate 1 (some 4)])).trace
      = [.addIceCandidate 1 2, .addIceCandidate 0 3, .addIceCandidate 0 4] :=
  (candidates_cross_forwarded .video demoStream [.click]
    [.icecandidate 0 (some 2), .icecandidate 1 (some 3), .icecandidate 0 none,
     .settle 0 (.rejected demoErr), .icecandidate 1 (some 4)] (by decide) (by decide)).2.2

/-- C6. In both variants, when the promise of an `addIceCandidate` call rejects
with `e`, the only call the page makes is the `console.error` of the attached
`.catch`, no run of the start handler changes state, and the negotiation calls
and the alerts of the whole session, and the states of its runs, are those of
the session in which every `addIceCandidate` promise resolves. -/
theorem candidate_rejection_only_logged (v : Variant) (pre post : List Event) (n : Nat)
    (msg : String) (e : Err)
    (hp : (run v World.init pre).icePromises[n]? = some (some msg)) :
    (step v (run v World.init pre) (.iceSettle n (some e))).trace
        = (run v World.init pre).trace ++ [.consoleError msg e] ∧
      (step v (run v World.init pre) (.iceSettle n (some e))).tasks
        = (run v World.init pre).tasks ∧
      negotiation (run v World.init (pre ++ .iceSettle n (some e) :: post)).trace
        = negotiation
            (run v World.init ((pre ++ .iceSettle n (some e) :: post).map resolveIce)).trace ∧
      alerts (run v World.init (pre ++ .iceSettle n (some e) :: post)).trace
        = alerts
            (run v World.init ((pre ++ .iceSettle n (some e) :: post).map resolveIce)).trace ∧
      (run v World.init (pre ++ .iceSettle n (some e) :: post)).tasks
        = (run v World.init ((pre ++ .iceSettle n (some e) :: post).map resolveIce)).tasks := by
  have hc : core (run v World.init (pre ++ .iceSettle n (some e) :: post))
      = core (run v World.init ((pre ++ .iceSettle n (some e) :: post).map resolveIce)) := by
    rw [core_run_init v (pre ++ .iceSettle n (some e) :: post),
      core_run_init v ((pre ++ .iceSettle n (some e) :: post).map resolveIce),
      filter_resolveIce]
  refine ⟨?_, ?_, ?_, ?_, (core_fields _ _ hc).2.2.2.2.2.2.1⟩
  · simp [step, onIceSettle, hp]
  · simp [step, onIceSettle, hp]
  · rw [← negotiation_core, hc, negotiation_core]
  · rw [← alerts_core, hc, alerts_core]

theorem candidate_rejection_only_logged_witness :
    (step .video (run .video World.init
        [.click, .settle 0 (.played (.stream demoStream)), .icecandidate 0 (some 3)])
        (.iceSettle 0 (some demoErr))).trace
      = (run .video World.init
          [.click, .settle 0 (.played (.stream demoStream)), .icecandidate 0 (some 3)]).trace
        ++ [.consoleError "Error adding remote candidate" demoErr] :=
  (candidate_rejection_only_logged .video
    [.click, .settle 0 (.played (.stream demoStream)), .icecandidate 0 (some 3)]
    [.settle 0 (.desc demoOffer)] 0 "Error adding remote candidate" demoErr (by decide)).1

/-- C7, as stated, fails: when `createOffer` rejects, the camera variant shows
no alert at all, and the video variant shows one. -/
theorem alert_variants_swapped :
    alerts (run .camera World.init
        [.click, .settle 0 (.media demoStream), .settle 0 (.rejected demoErr)]).trace = [] ∧
      alerts (run .video World.init
        [.click, .settle 0 (.played (.stream demoStream)), .settle 0 (.rejected demoErr)]).trace
        = [.alert "Failed to start WebRTC: boom"] := by
  constructor <;> decide

/-- C7, amended. When the negotiation step at position `k` rejects with `e`, both
variants call `console.error` with `e`; the video variant, which plays a video
element and captures its output, also shows the alert
`'Failed to start WebRTC: ' + e.message`, and the camera variant, which prompts
for camera and microphone, shows no alert in the whole session. -/
theorem alert_only_in_video_variant (v : Variant) (pre post : List Event) (s : Stream)
    (offer answer : Desc) (e : Err) (k : Nat) (hk : k < 6)
    (hpre : pre.filter isRunEvent
      = .click :: .settle 0 (acquired v s) :: ((sixReplies offer answer).take k).map (.settle 0))
    (hpost : post.filter isRunEvent = []) :
    Call.consoleError (catchLogMsg v) e
        ∈ (run v World.init (pre ++ .settle 0 (.rejected e) :: post)).trace ∧
      alerts (run v World.init (pre ++ .settle 0 (.rejected e) :: post)).trace
        = match v with
          | .camera => []
          | .video => [.alert ("Failed to start WebRTC: " ++ e.message)] :=
  ⟨failed_logged v pre post s offer answer e k hk hpre,
    failed_alerts v pre post s offer answer e k hk hpre hpost⟩

theorem alert_only_in_video_variant_witness :
    alerts (run .video World.init
        ([.click, .settle 0 (.played (.stream demoStream)), .settle 0 (.desc demoOffer)]
          ++ .settle 0 (.rejected demoErr) :: [.track 1 [demoStream]])).trace
      = [.alert ("Failed to start WebRTC: " ++ demoErr.message)] :=
  (alert_only_in_video_variant .video
    [.click, .settle 0 (.played (.stream demoStream)), .settle 0 (.desc demoOffer)]
    [.track 1 [demoStream]] demoStream demoOffer demoAnswer demoErr 1 (by decide) (by decide)
    (by decide)).2

/-- C8, as stated, fails: over the stub stack, in the video variant, a second
start that builds its connections while the first run awaits
`setRemoteDescription(offer)` lets the first run end with every reply a success,
the offer of kind `offer` and the answer of kind `answer`, and leaves connection
`0` with no remote description, connection `1` with no local description,
connection `2` with only a remote description and connection `3` with only a
local one. -/
theorem overlapped_run_splits_descriptions :
    (run .video World.init (demoOverlap.take 2)).localConn = some 0 ∧
      (run .video World.init (demoOverlap.take 2)).remoteConn = some 1 ∧
      (run .video World.init demoOverlap).tasks[0]? = some .finished ∧
      localDescription (run .video World.init demoOverlap).trace 0 = some demoOffer ∧
      remoteDescription (run .video World.init demoOverlap).trace 0 = none ∧
      localDescription (run .video World.init demoOverlap).trace 1 = none ∧
      remoteDescription (run .video World.init demoOverlap).trace 1 = some demoOffer ∧
      localDescription (run .video World.init demoOverlap).trace 2 = none ∧
      remoteDescription (run .video World.init demoOverlap).trace 2 = some demoAnswer ∧
      localDescription (run .video World.init demoOverlap).trace 3 = some demoAnswer ∧
      remoteDescription (run .video World.init demoOverlap).trace 3 = none ∧
      (remoteDescription (run .video World.init demoOverlap).trace 0).map Desc.kind
        ≠ some .answer ∧
      (localDescription (run .video World.init demoOverlap).trace 1).map Desc.kind
        ≠ some .answer := by
  refine ⟨by decide, by decide, by decide, by decide, by decide, by decide, by decide,
    by decide, by decide, by decide, by decide, by decide, by decide⟩

/-- C8, amended. In both variants, in a session with one click, over a stub
stack that stores the argument of `setLocalDescription` and
`setRemoteDescription` as the description of the connection, with `createOffer`
resolving to a description of kind `offer` and `createAnswer` to one of kind
`answer`, after a successful run the local connection has a local description
of kind `offer` and a remote one of kind `answer`, and the remote connection a
local one of kind `answer` and a remote one of kind `offer`. -/
theorem description_kinds_after_run (v : Variant) (evs : List Event) (s : Stream)
    (offer answer : Desc)
    (h : evs.filter isRunEvent
      = .click :: .settle 0 (acquired v s) :: (sixReplies offer answer).map (.settle 0))
    (ho : offer.kind = .offer) (ha : answer.kind = .answer) :
    (run v World.init evs).localConn = some 0 ∧ (run v World.init evs).remoteConn = some 1 ∧
    (localDescription (run v World.init evs).trace 0).map Desc.kind = some .offer ∧
    (remoteDescription (run v World.init evs).trace 0).map Desc.kind = some .answer ∧
    (localDescription (run v World.init evs).trace 1).map Desc.kind = some .answer ∧
    (remoteDescription (run v World.init evs).trace 1).map Desc.kind = some .offer := by
  obtain ⟨hl, hr, hn⟩ := happy_negotiation v evs s offer answer h
  refine ⟨hl, hr, ?_, ?_, ?_, ?_⟩
  · rw [← localDescription_negotiation, hn]; simp [localDescription, sixCalls, ho]
  · rw [← remoteDescription_negotiation, hn]; simp [remoteDescription, sixCalls, ha]
  · rw [← localDescription_negotiation, hn]; simp [localDescription, sixCalls, ha]
  · rw [← remoteDescription_negotiation, hn]; simp [remoteDescription, sixCalls, ho]

theorem description_kinds_after_run_witness :
    (localDescription (run .video World.init demoHappy).trace 0).map Desc.kind = some .offer ∧
    (remoteDescription (run .video World.init demoHappy).trace 0).map Desc.kind = some .answer :=
  have h := description_kinds_after_run .video demoHappy demoStream demoOffer demoAnswer
    (by decide) rfl rfl
  ⟨h.2.2.1, h.2.2.2.1⟩

/-- C9, as stated, fails: after two track-received events on the remote
connection with different streams, the playback sink holds `streams[0]` of the
second event, not of the first. -/
theorem sink_is_not_first_event :
    (run .camera World.init
        [.click, .settle 0 (.media demoStream), .track 1 [⟨1, [10]⟩], .track 1 [⟨2, [11]⟩]]
      ).remoteVideoSrc = some ⟨2, [11]⟩ ∧
      (run .camera World.init
        [.click, .settle 0 (.media demoStream), .track 1 [⟨1, [10]⟩], .track 1 [⟨2, [11]⟩]]
      ).remoteVideoSrc ≠ ([⟨1, [10]⟩] : List Stream).head? := by
  constructor <;> decide

/-- C9, amended. In both variants, the track-received handler of the remote
connection assigns `streams[0]` of each event to the playback sink: after any
sequence of events that follows the building of the connections, the sink's
source is `streams[0]` of the last track-received event of the remote
connection. -/
theorem sink_is_last_event (v : Variant) (s : Stream) (pre mid post : List Event)
    (streams : List Stream)
    (hpre : pre.filter isRunEvent = [.click]) (hmid : ∀ ev ∈ mid, ev ≠ .click)
    (hpost : ∀ ev ∈ post, ev ≠ .click) (hlast : ∀ ss, Event.track 1 ss ∉ post) :
    (run v World.init
        (pre ++ .settle 0 (acquired v s) :: (mid ++ .track 1 streams :: post))).remoteConn
      = some 1 ∧
    (run v World.init
        (pre ++ .settle 0 (acquired v s) :: (mid ++ .track 1 streams :: post))).remoteVideoSrc
      = streams.head? := by
  have hall : ∀ ev ∈ mid ++ .track 1 streams :: post, ev ≠ .click := by
    intro ev hev
    rcases List.mem_append.mp hev with h | h
    · exact hmid ev h
    · rcases List.mem_cons.mp h with h | h
      · rw [h]; simp
      · exact hpost ev h
  refine ⟨(built_reached v s pre _ hpre hall).1.2.2.1, ?_⟩
  have hb := (built_reached v s pre mid hpre hmid).1
  have e1 : pre ++ .settle 0 (acquired v s) :: (mid ++ .track 1 streams :: post)
      = (pre ++ .settle 0 (acquired v s) :: mid) ++ .track 1 streams :: post := by simp
  rw [e1, run_append]
  show (run v (step v _ (.track 1 streams)) post).remoteVideoSrc = _
  rw [remoteVideoSrc_run v s post _ (built_step v s _ _ hb (by simp)) hpost hlast,
    remoteVideoSrc_track v s _ streams hb]

theorem sink_is_last_event_witness :
    (run .video World.init
        ([.click] ++ .settle 0 (acquired .video demoStream)
          :: ([.track 1 [⟨1, [10]⟩]] ++ .track 1 [⟨2, [11]⟩, demoStream]
            :: [.settle 0 (.desc demoOffer)]))).remoteVideoSrc
      = some ⟨2, [11]⟩ :=
  (sink_is_last_event .video demoStream [.click] [.track 1 [⟨1, [10]⟩]]
    [.settle 0 (.desc demoOffer)] [⟨2, [11]⟩, demoStream] (by decide) (by decide) (by decide)
    (by simp)).2

/-- C10. In the video variant there is a session in which start is triggered
twice, the first run builds connections `0` and `1` and the second builds `2`
and `3`, and a candidate then discovered by connection `0`, the first run's local
connection, is passed to `addIceCandidate` of connection `3`, the second run's
remote connection, and to no other; and in no session of the video variant is
`close()` ever called. -/
theorem double_start_crosses_runs :
    ((run .video World.init (demoDoubleStart.take 2)).localConn = some 0 ∧
      (run .video World.init (demoDoubleStart.take 2)).remoteConn = some 1 ∧
      constructed (run .video World.init (demoDoubleStart.take 2)).trace
        = [.newPeerConnection 0, .newPeerConnection 1] ∧
      (run .video World.init (demoDoubleStart.take 4)).localConn = some 2 ∧
      (run .video World.init (demoDoubleStart.take 4)).remoteConn = some 3 ∧
      constructed (run .video World.init (demoDoubleStart.take 4)).trace
        = [.newPeerConnection 0, .newPeerConnection 1, .newPeerConnection 2,
           .newPeerConnection 3] ∧
      (run .video World.init demoDoubleStart).trace
        = (run .video World.init (demoDoubleStart.take 4)).trace ++ [.addIceCandidate 3 9] ∧
      iceCalls (run .video World.init demoDoubleStart).trace = [.addIceCandidate 3 9]) ∧
    ∀ (evs : List Event) (c : ConnId), Call.close c ∉ (run .video World.init evs).trace := by
  refine ⟨by decide, ?_⟩
  intro evs c hc
  have : Call.close c ∈ closes (run .video World.init evs).trace :=
    List.mem_filter.mpr ⟨hc, rfl⟩
  rw [closes_run] at this
  simp [closes, World.init] at this

end Loopback
